import Mathlib

/-!
# Verification of the SWE-bench PoC evaluation harness

A shallow embedding, in Lean 4, of the core of the multi-provider code-repair
evaluation harness (`swe-bench-poc`): the per-problem evaluation pipeline of
`lib/evaluator.js` (extraction, syntax validation, test execution, verdict,
batching, reporting), the agent factory (`agent-factory.js`), the four
`testConnection` adapters, and the provider-comparison summary of
`test-setup.js`.

Effectful collaborators (the model provider, the `python3` subprocesses, the
file system) are modelled by explicit oracles recorded in an `Env` value: each
remote call or subprocess invocation is a field giving the outcome that call
would produce.  JavaScript exceptions are modelled with `Except`/`Option`, the
mutable temp-file directory as an explicit list of file names threaded through
the functions, and JavaScript number arithmetic over `ℚ` (exact for all result
counts that fit a double).
-/

namespace SweBench

/-- JavaScript whitespace class (the ASCII part of `\s` and of
`String.prototype.trim`, plus NBSP).  The evaluator source only ever meets
ASCII whitespace in the strings it trims and matches. -/
def isWS (c : Char) : Bool :=
  c = ' ' || c = '\t' || c = '\n' || c = '\r' || c = '\x0b' || c = '\x0c' || c = ' '

/-- `String.prototype.trim` on the character list: drop leading and trailing
whitespace. -/
def trimChars (l : List Char) : List Char :=
  List.rdropWhile isWS (List.dropWhile isWS l)

/-- `String.prototype.trim`. -/
def jsTrim (s : String) : String :=
  ⟨trimChars s.data⟩

/-- Case-insensitive-capable literal matcher: if `pat` is a prefix of `s`
(comparing with `Char.toLower` when `ci` is true, as the `/i` regex flag does
on ASCII), return the remainder of `s` after `pat`. -/
def prefixMatchCI (ci : Bool) (pat s : List Char) : Option (List Char) :=
  match pat, s with
  | [], rest => some rest
  | _ :: _, [] => none
  | p :: ps, c :: cs =>
    if (if ci then p.toLower = c.toLower else p = c) then prefixMatchCI ci ps cs else none

/-- Find the first occurrence of the literal `pat` in `s`; return the text
before the occurrence and the remainder after it.  This is the leftmost-match
rule of a JavaScript regex whose body is the literal `pat`. -/
def splitOnFirst (ci : Bool) (pat : List Char) (s : List Char) : Option (List Char × List Char) :=
  match s with
  | [] => (prefixMatchCI ci pat []).map (fun rest => ([], rest))
  | c :: cs =>
    match prefixMatchCI ci pat (c :: cs) with
    | some rest => some ([], rest)
    | none =>
      match splitOnFirst ci pat cs with
      | some pr => some (c :: pr.1, pr.2)
      | none => none

/-- `String.prototype.includes`: does the literal `pat` occur in `s`. -/
def containsSub (s pat : List Char) : Bool :=
  (splitOnFirst false pat s).isSome

/-- Try a matcher at every start position of `s`, left to right: the
leftmost-match rule of `String.prototype.match` for a pattern with no anchors. -/
def scanFor (f : List Char → Option (List Char)) (s : List Char) : Option (List Char) :=
  match s with
  | [] => f []
  | _ :: cs =>
    match f s with
    | some r => some r
    | none => scanFor f cs

/-! ## `Evaluator.extractFixedCode` (lib/evaluator.js 105-133)

Tier 1 is the regex `/FIXED_CODE:\s*```python\s*([\s\S]*?)\s*```/i`; tier 2 is
`/```python\s*([\s\S]*?)\s*```/`; tier 3 is the line scan.  Because the code
always applies `.trim()` to the captured group, and the greedy/lazy `\s*`
borders only move whitespace in and out of the group, the capture-then-trim of
either regex equals the trim of everything strictly between the opening
marker and the first closing fence; the matchers below compute exactly that.
For tier 2, the leftmost match starts at the first occurrence of
"```python": occurrences cannot overlap (the literal has no self-overlap) and
any later occurrence begins with "```", so if the first occurrence has no
closing fence after it, no occurrence has. -/

/-- Try the tier-1 pattern anchored at the current position: `FIXED_CODE:`
(case-insensitive), optional whitespace, a ```python fence (case-insensitive),
then everything up to the first closing ``` fence, trimmed. -/
def matchFixedCodeAt (s : List Char) : Option (List Char) :=
  (prefixMatchCI true "FIXED_CODE:".data s).bind fun r1 =>
    let r2 := r1.dropWhile isWS
    (prefixMatchCI true "```python".data r2).bind fun r3 =>
      (splitOnFirst false "```".data r3).map fun pr => trimChars pr.1

/-- Tier 1: `analysis.match(/FIXED_CODE:\s*```python\s*([\s\S]*?)\s*```/i)`,
then `match[1].trim()`. -/
def fixedCodeMatch (analysis : String) : Option String :=
  (scanFor matchFixedCodeAt analysis.data).map (fun l => ⟨l⟩)

/-- Tier 2: `analysis.match(/```python\s*([\s\S]*?)\s*```/)`, then
`match[1].trim()`. -/
def codeBlockMatch (analysis : String) : Option String :=
  (splitOnFirst false "```python".data analysis.data).bind fun pr =>
    (splitOnFirst false "```".data pr.2).map fun pr2 => (⟨trimChars pr2.1⟩ : String)

/-- The statement-opening test of tier 3:
`line.trim().match(/^(def|class|import|from|if|for|while|try|with|\s+)/)`.
The match is a bare prefix test on the trimmed line (no word boundary); the
`\s+` alternative is kept although a trimmed line can never begin with
whitespace. -/
def lineOpensCode (line : List Char) : Bool :=
  let t := trimChars line
  "def".data.isPrefixOf t || "class".data.isPrefixOf t || "import".data.isPrefixOf t ||
    "from".data.isPrefixOf t || "if".data.isPrefixOf t || "for".data.isPrefixOf t ||
    "while".data.isPrefixOf t || "try".data.isPrefixOf t || "with".data.isPrefixOf t ||
    (match t with | c :: _ => isWS c | [] => false)

/-- `analysis.split('\n')` on character lists. -/
def splitNL (l : List Char) : List (List Char) :=
  match l with
  | [] => [[]]
  | c :: cs =>
    let rest := splitNL cs
    if c = '\n' then [] :: rest
    else
      match rest with
      | r :: rs => (c :: r) :: rs
      | [] => [[c]]

/-- `lines.join('\n')`. -/
def joinNL (ls : List (List Char)) : List Char :=
  match ls with
  | [] => []
  | [l] => l
  | l :: ls => l ++ '\n' :: joinNL ls

/-- Tier 3: scan the lines; once a line passes `lineOpensCode` the flag
`inCodeBlock` is set and never cleared, so the collected lines are exactly the
suffix of the line list from the first opening line on.  Returns the joined
collected lines, trimmed, or `none` when no line ever matched. -/
def lineScanFallback (analysis : String) : Option String :=
  let lines := splitNL analysis.data
  let code := lines.dropWhile (fun l => !lineOpensCode l)
  if code.isEmpty then none else some ⟨trimChars (joinNL code)⟩

/-- `Evaluator.extractFixedCode` (lib/evaluator.js 105-133): the three tiers
tried in order, first match wins. -/
def extractFixedCode (analysis : String) : Option String :=
  match fixedCodeMatch analysis with
  | some r => some r
  | none =>
    match codeBlockMatch analysis with
    | some r => some r
    | none => lineScanFallback analysis

example : extractFixedCode "FIXED_CODE:\n```python\ndef f(x):\n  return x\n```" =
    some "def f(x):\n  return x" := by decide

example : extractFixedCode "text\n```python\nx = 1\n```\nmore" = some "x = 1" := by decide

example : extractFixedCode "```\ndef f(x):\n  return x\n```" =
    some "def f(x):\n  return x\n```" := by decide

example : extractFixedCode "no code here at all" = none := by decide

/-! ## Data model (§3 of the spec; lib/evaluator.js)

`execution_time` and `timestamp` are wall-clock readings and are not part of
any claim here; they are omitted from the embedded records.  Fields that the
JavaScript initialises to `null` are `Option`s. -/

/-- A repair task (spec §3).  `difficulty`, `tags`, `expected_patch`, `repo`
are descriptive metadata unused by the pipeline and are omitted. -/
structure Problem where
  id : String
  problem_statement : String
  base_code : String
  filename : Option String
  test_cases : List String
deriving Repr, DecidableEq

/-- One entry of `result.test_results` (lib/evaluator.js 169-175). -/
structure TestResult where
  test_id : Nat
  test_case : String
  passed : Bool
  output : Option String
  error : Option String
deriving Repr, DecidableEq

/-- The per-problem result record (lib/evaluator.js 23-33), without the two
clock fields. -/
structure EvaluationResult where
  problem_id : String
  success : Bool
  error : Option String
  analysis : Option String
  generated_fix : Option String
  patch : Option String
  test_results : List TestResult
deriving Repr, DecidableEq

/-- Outcome of one `execAsync` subprocess run: either it resolves with the
captured streams (exit code 0) or it rejects (nonzero exit, signal, spawn
failure) with an error message. -/
inductive ExecOutcome where
  | ok (stdout stderr : String)
  | err (msg : String)
deriving Repr, DecidableEq

/-- The effect oracle for one `evaluateProblem` run: the outcomes the agent
calls and subprocess invocations would produce, and the unique temp-file
names `Date.now()` would yield. -/
structure Env where
  analyze : Except String String
  patchGen : Except String String
  syntaxExec : Bool
  syntaxTmp : String
  testExec : Nat → ExecOutcome
  testTmp : Nat → String

/-- `Evaluator.determineSucess` (lib/evaluator.js 220-241), typo preserved:
no recorded error, non-empty trimmed fix, and if any test results exist at
least one passed. -/
def determineSucess (result : EvaluationResult) : Bool :=
  if result.error.isSome then false
  else
    match result.generated_fix with
    | none => false
    | some fix =>
      if (jsTrim fix).length = 0 then false
      else if result.test_results.length > 0 then
        (result.test_results.filter (fun t => t.passed)).length > 0
      else true

/-- `Evaluator.validateSyntax` (lib/evaluator.js 140-155) with the temp
directory made explicit: write the temp file, run `python3 -m py_compile`;
on success unlink the file and return true, on any rejection return false
from the catch (the unlink is skipped).  The returned list is the temp
directory after the call. -/
def validateSyntax (env : Env) (fs : List String) : Bool × List String :=
  let fs1 := fs ++ [env.syntaxTmp]
  if env.syntaxExec then (true, fs1.erase env.syntaxTmp) else (false, fs1)

/-- One iteration of the `runTestCases` loop (lib/evaluator.js 167-209):
write the synthesized script, run it; on resolution record stdout and classify
passed iff the sentinel "TEST_PASSED" appears in stdout and stderr is empty,
then unlink; on rejection record the message with `passed=false` (the unlink
inside the try is skipped). -/
def runTestCaseStep (env : Env) (i : Nat) (tc : String) (fs : List String) :
    TestResult × List String :=
  let fname := env.testTmp i
  let fs1 := fs ++ [fname]
  match env.testExec i with
  | .ok out errS =>
    ({ test_id := i, test_case := tc,
       passed := containsSub out.data "TEST_PASSED".data && errS = "",
       output := some out,
       error := if errS = "" then none else some errS }, fs1.erase fname)
  | .err m =>
    ({ test_id := i, test_case := tc, passed := false, output := none, error := some m }, fs1)

/-- `Evaluator.runTestCases` (lib/evaluator.js 164-212): the indexed loop over
the test cases, threading the temp directory. -/
def runTestCases (env : Env) (i : Nat) (tcs : List String) (fs : List String) :
    List TestResult × List String :=
  match tcs with
  | [] => ([], fs)
  | tc :: rest =>
    let (r, fs1) := runTestCaseStep env i tc fs
    let (rs, fs2) := runTestCases env (i + 1) rest fs1
    (r :: rs, fs2)

/-- `Evaluator.evaluateProblem` (lib/evaluator.js 21-98): the sequential
pipeline with its single catch; every stage failure records the thrown
message and skips the later stages.  The extraction guard `if (!fixedCode)`
also fires on an extracted empty string. -/
def evaluateProblem (env : Env) (p : Problem) (fs : List String) :
    EvaluationResult × List String :=
  let r0 : EvaluationResult :=
    { problem_id := p.id, success := false, error := none, analysis := none,
      generated_fix := none, patch := none, test_results := [] }
  match env.analyze with
  | .error m => ({ r0 with error := some m }, fs)
  | .ok analysis =>
    let r1 := { r0 with analysis := some analysis }
    match extractFixedCode analysis with
    | none => ({ r1 with error := some "Could not extract fixed code from analysis" }, fs)
    | some fixedCode =>
      if fixedCode = "" then
        ({ r1 with error := some "Could not extract fixed code from analysis" }, fs)
      else
        let r2 := { r1 with generated_fix := some fixedCode }
        match env.patchGen with
        | .error m => ({ r2 with error := some m }, fs)
        | .ok patch =>
          let r3 := { r2 with patch := some patch }
          let sv := validateSyntax env fs
          if !sv.1 then ({ r3 with error := some "Generated code has syntax errors" }, sv.2)
          else
            let tr :=
              if p.test_cases.length > 0 then runTestCases env 0 p.test_cases sv.2
              else ([], sv.2)
            let r4 := { r3 with test_results := tr.1 }
            ({ r4 with success := determineSucess r4 }, tr.2)

/-- `Evaluator.evaluateBatch` (lib/evaluator.js 248-261): evaluate each
problem in input order, pushing each result; `envOf i` is the effect oracle
for the i-th run. -/
def evaluateBatch (envOf : Nat → Env) (i : Nat) (problems : List Problem)
    (fs : List String) : List EvaluationResult × List String :=
  match problems with
  | [] => ([], fs)
  | p :: rest =>
    let (r, fs1) := evaluateProblem (envOf i) p fs
    let (rs, fs2) := evaluateBatch envOf (i + 1) rest fs1
    (r :: rs, fs2)

/-! ## `Evaluator.generateReport` (lib/evaluator.js 268-295)

`average_time_ms` averages the wall-clock `execution_time` readings, which the
embedding does not model (no claim concerns them); the field is omitted
together with `generated_at`.  JavaScript number arithmetic is modelled over
`ℚ`: exact for every division of result counts, and `toFixed(2)` as
round-half-up to hundredths, which agrees with the double computation for all
result-list lengths below astronomical sizes. -/

/-- Render a nonnegative count of hundredths as a decimal with exactly two
fraction digits, as `Number.prototype.toFixed(2)` does. -/
def fmtHundredths (n : Nat) : String :=
  Nat.repr (n / 100) ++ "." ++ (if n % 100 < 10 then "0" ++ Nat.repr (n % 100) else Nat.repr (n % 100))

/-- `q.toFixed(2)` for nonnegative `q`: round half up to a whole number of
hundredths and render. -/
def toFixed2 (q : ℚ) : String :=
  fmtHundredths (Int.toNat ⌊q * 100 + 1 / 2⌋)

/-- `errorType = r.error.split(':')[0]`: the text before the first colon. -/
def errorKey (e : String) : String :=
  ⟨e.data.takeWhile (fun c => c ≠ ':')⟩

/-- `errorTypes[k] = (errorTypes[k] || 0) + 1` on an insertion-ordered
association list (the JavaScript object with string keys). -/
def bumpKey (m : List (String × Nat)) (k : String) : List (String × Nat) :=
  match m with
  | [] => [(k, 1)]
  | (k0, n) :: rest => if k0 = k then (k0, n + 1) :: rest else (k0, n) :: bumpKey rest k

/-- The `summary` block of a report. -/
structure ReportSummary where
  total_problems : Nat
  successful_solutions : Nat
  failed_solutions : Nat
  success_rate : String
deriving Repr, DecidableEq

/-- The report returned by `generateReport`, without the timestamp. -/
structure Report where
  summary : ReportSummary
  error_analysis : List (String × Nat)
  detailed_results : List EvaluationResult
deriving Repr, DecidableEq

/-- `Evaluator.generateReport` (lib/evaluator.js 268-295). -/
def generateReport (results : List EvaluationResult) : Report :=
  let total := results.length
  let successful := (results.filter (fun r => r.success)).length
  let failed := total - successful
  let errorTypes := results.foldl
    (fun m r => match r.error with | some e => bumpKey m (errorKey e) | none => m) []
  { summary :=
      { total_problems := total
        successful_solutions := successful
        failed_solutions := failed
        success_rate :=
          if 0 < total then toFixed2 ((successful : ℚ) / (total : ℚ) * 100) ++ "%" else "0%" }
    error_analysis := errorTypes
    detailed_results := results }

/-! ## `AgentFactory` (agent-factory.js)

`process.env` is a function from variable names to optional values; the
JavaScript falsiness test `!process.env[v]` also treats the empty string as
absent.  The caller-supplied mutable `options` object is threaded explicitly:
`createValidatedAgent` returns the final state of the object it was handed,
because the source assigns `options.model` in place. -/

/-- The process environment. -/
def ProcEnv : Type := String → Option String

/-- JavaScript truthiness on an optional string: `undefined` and `""` are
falsy. -/
def jsPresent (o : Option String) : Option String :=
  match o with
  | none => none
  | some s => if s = "" then none else some s

/-- `String.prototype.toLowerCase` (ASCII): the lowercasing used to
normalise provider tags.  Defined over the character list so that the kernel
can evaluate it. -/
def lowerStr (s : String) : String :=
  ⟨s.data.map Char.toLower⟩

/-- `AgentFactory.getDefaultModels()` (agent-factory.js 41-48). -/
def getDefaultModels (provider : String) : Option String :=
  if provider = "ollama" then some "qwen:2.5-8b"
  else if provider = "openai" then some "gpt-4"
  else if provider = "gemini" then some "gemini-pro"
  else if provider = "claude" then some "claude-3-sonnet-20240229"
  else none

/-- `AgentFactory.getAvailableModels()` (agent-factory.js 54-85). -/
def getAvailableModels (provider : String) : Option (List String) :=
  if provider = "ollama" then
    some ["qwen:2.5-8b", "qwen:2.5-14b", "codellama:13b", "codellama:34b",
          "deepseek-coder:6.7b", "deepseek-coder:33b", "llama3:8b", "llama3:70b"]
  else if provider = "openai" then
    some ["gpt-4", "gpt-4-turbo", "gpt-3.5-turbo", "gpt-4o", "gpt-4o-mini"]
  else if provider = "gemini" then
    some ["gemini-pro", "gemini-1.5-pro", "gemini-1.5-flash"]
  else if provider = "claude" then
    some ["claude-3-sonnet-20240229", "claude-3-opus-20240229", "claude-3-haiku-20240307",
          "claude-3-5-sonnet-20241022"]
  else none

/-- `AgentFactory.getRequiredEnvVars()` (agent-factory.js 108-115). -/
def getRequiredEnvVars (provider : String) : Option (List String) :=
  if provider = "ollama" then some []
  else if provider = "openai" then some ["OPENAI_API_KEY"]
  else if provider = "gemini" then some ["GEMINI_API_KEY"]
  else if provider = "claude" then some ["ANTHROPIC_API_KEY"]
  else none

/-- `!process.env[varName]`. -/
def envMissing (env : ProcEnv) (v : String) : Bool :=
  (jsPresent (env v)).isNone

/-- The structured verdict of `validateEnvironment`. -/
structure EnvCheck where
  valid : Bool
  missing : List String
  error : Option String
deriving Repr, DecidableEq

/-- `", ".join` of `Array.prototype.join(', ')`. -/
def joinComma (l : List String) : String :=
  match l with
  | [] => ""
  | [x] => x
  | x :: rest => x ++ ", " ++ joinComma rest

/-- `AgentFactory.validateEnvironment` (agent-factory.js 122-137). -/
def validateEnvironment (env : ProcEnv) (provider : String) : EnvCheck :=
  match getRequiredEnvVars (lowerStr provider) with
  | none => { valid := false, missing := [], error := some ("Unknown provider: " ++ provider) }
  | some requiredVars =>
    let missing := requiredVars.filter (envMissing env)
    { valid := missing.length = 0
      missing := missing
      error :=
        if 0 < missing.length then some ("Missing environment variables: " ++ joinComma missing)
        else none }

/-- The caller-supplied `options` object (the fields the constructors read). -/
structure AgentOptions where
  model : Option String := none
  apiKey : Option String := none
  host : Option String := none
  port : Option Nat := none
  timeout : Option Nat := none
deriving Repr, DecidableEq

/-- A constructed agent: the configuration each variant constructor stores.
`credential` is `none` for the local variant; `host` carries the ollama host
or the fixed cloud base URL. -/
structure Agent where
  provider : String
  model : String
  timeout : Nat
  credential : Option String
  host : String
  port : Option Nat
deriving Repr, DecidableEq

/-- `options.x || fallbackString`. -/
def jsOrD (o : Option String) (d : String) : String :=
  (jsPresent o).getD d

/-- `AgentFactory.createAgent` (agent-factory.js 16-35) together with the four
variant constructors (ollama-agent.js 7-12, openai-agent.js, gemini-agent.js,
claude-agent.js constructors): dispatch on the lowercased tag; each cloud
constructor resolves `options.apiKey || process.env.<KEY>` and throws when the
result is falsy. -/
def createAgent (env : ProcEnv) (provider : String) (options : AgentOptions) :
    Except String Agent :=
  if lowerStr provider = "ollama" then
    .ok { provider := "ollama", model := jsOrD options.model "qwen:2.5-8b",
          timeout := options.timeout.getD 60000, credential := none,
          host := jsOrD options.host "localhost", port := some (options.port.getD 11434) }
  else if lowerStr provider = "openai" then
    match jsPresent options.apiKey <|> jsPresent (env "OPENAI_API_KEY") with
    | none => .error "OpenAI API key required. Set OPENAI_API_KEY environment variable or pass apiKey option."
    | some key =>
      .ok { provider := "openai", model := jsOrD options.model "gpt-4",
            timeout := options.timeout.getD 60000, credential := some key,
            host := "api.openai.com", port := none }
  else if lowerStr provider = "gemini" then
    match jsPresent options.apiKey <|> jsPresent (env "GEMINI_API_KEY") with
    | none => .error "Gemini API key required. Set GEMINI_API_KEY environment variable or pass apiKey option."
    | some key =>
      .ok { provider := "gemini", model := jsOrD options.model "gemini-pro",
            timeout := options.timeout.getD 60000, credential := some key,
            host := "generativelanguage.googleapis.com", port := none }
  else if lowerStr provider = "claude" then
    match jsPresent options.apiKey <|> jsPresent (env "ANTHROPIC_API_KEY") with
    | none => .error "Anthropic API key required. Set ANTHROPIC_API_KEY environment variable or pass apiKey option."
    | some key =>
      .ok { provider := "claude", model := jsOrD options.model "claude-3-sonnet-20240229",
            timeout := options.timeout.getD 60000, credential := some key,
            host := "api.anthropic.com", port := none }
  else
    .error ("Unsupported provider: " ++ provider ++ ". Supported providers: ollama, openai, gemini, claude")

/-- `AgentFactory.isValidProviderModel` (agent-factory.js 93-102). -/
def isValidProviderModel (provider model : String) : Bool :=
  match getAvailableModels (lowerStr provider) with
  | none => false
  | some models => models.contains model

/-- `${options.model}` interpolation: `undefined` renders as "undefined". -/
def showOptString (o : Option String) : String :=
  match o with
  | none => "undefined"
  | some s => s

/-- `AgentFactory.createValidatedAgent` (agent-factory.js 145-165).  Returns
the outcome together with the final state of the caller's `options` object:
the source writes the default model into `options.model` in place before the
model check, so the object comes back changed. -/
def createValidatedAgent (env : ProcEnv) (provider : String) (options : AgentOptions) :
    Except String Agent × AgentOptions :=
  let envCheck := validateEnvironment env provider
  if !envCheck.valid then
    (.error (showOptString envCheck.error), options)
  else
    let options1 :=
      match jsPresent options.model with
      | some _ => options
      | none => { options with model := getDefaultModels (lowerStr provider) }
    let modelOk :=
      match options1.model with
      | some m => isValidProviderModel provider m
      | none => false
    if !modelOk then
      (.error ("Invalid model " ++ showOptString options1.model ++ " for provider " ++ provider ++
        ". Available models: " ++ joinComma ((getAvailableModels (lowerStr provider)).getD [])), options1)
    else
      (createAgent env provider options1, options1)

/-! ## `testConnection` (ollama-agent.js 87-95, openai-agent.js,
gemini-agent.js 98-106, claude-agent.js 99-107)

Each adapter's `testConnection` wraps one minimal `generate` call in a
try/catch; the `generate` outcome is the oracle argument.  The `Except` result
type records whether the function itself throws: the catch clause makes every
outcome an `ok`. -/

/-- `OllamaAgent.testConnection`. -/
def OllamaAgent.testConnection (generateOutcome : Except String String) : Except String Bool :=
  match generateOutcome with
  | .ok response => .ok (decide (0 < response.length))
  | .error _ => .ok false

/-- `OpenAIAgent.testConnection`. -/
def OpenAIAgent.testConnection (generateOutcome : Except String String) : Except String Bool :=
  match generateOutcome with
  | .ok response => .ok (decide (0 < response.length))
  | .error _ => .ok false

/-- `GeminiAgent.testConnection`. -/
def GeminiAgent.testConnection (generateOutcome : Except String String) : Except String Bool :=
  match generateOutcome with
  | .ok response => .ok (decide (0 < response.length))
  | .error _ => .ok false

/-- `ClaudeAgent.testConnection`. -/
def ClaudeAgent.testConnection (generateOutcome : Except String String) : Except String Bool :=
  match generateOutcome with
  | .ok response => .ok (decide (0 < response.length))
  | .error _ => .ok false

/-! ## The comparison orchestrator (test-setup.js 427-497)

`compareProviders` runs each provider inside a try/catch: the oracle for one
provider is the `Except` outcome of its setup + connection + batch, carrying
the finished `Report` on success.  `generateComparisonSummary` parses the
success-rate strings back with `parseFloat(s.replace('%',''))`; the parsed
values are modelled in `ℚ` (exact on every string the system produces, and
double comparisons of distinct hundredths values agree with the rational
order).  The JavaScript ranking entries re-render the parsed number; the
model keeps the parsed value. -/

/-- One entry of `provider_results`: a real report, or the catch clause's
placeholder `{error, summary: {success_rate: '0%'}}`. -/
structure PRes where
  error : Option String
  success_rate : String
deriving Repr, DecidableEq

/-- The per-provider loop of `compareProviders` (test-setup.js 427-453):
a thrown setup/connection/evaluation maps to the zero-rate placeholder. -/
def buildProviderResults (outs : List (String × Except String Report)) :
    List (String × PRes) :=
  outs.map (fun pr =>
    (pr.1, match pr.2 with
      | .ok rep => { error := none, success_rate := rep.summary.success_rate }
      | .error m => { error := some m, success_rate := "0%" }))

/-- `s.replace('%', '')`: remove the first occurrence of "%". -/
def replacePct (s : String) : String :=
  match splitOnFirst false "%".data s.data with
  | some pr => ⟨pr.1 ++ pr.2⟩
  | none => s

/-- Digit run to a number. -/
def digitsToNat (l : List Char) : Nat :=
  l.foldl (fun n c => 10 * n + (c.toNat - 48)) 0

/-- `parseFloat` restricted to the shapes this system produces (an unsigned
decimal literal); `none` is NaN. -/
def parseFloatQ (s : String) : Option ℚ :=
  let l := s.data.dropWhile isWS
  let ip := l.takeWhile (fun c => c.isDigit)
  let rest := l.dropWhile (fun c => c.isDigit)
  let fp : List Char :=
    match rest with
    | c :: cs => if c = '.' then cs.takeWhile (fun d => d.isDigit) else []
    | [] => []
  if ip.isEmpty && fp.isEmpty then none
  else some ((digitsToNat ip : ℚ) + (digitsToNat fp : ℚ) / (10 : ℚ) ^ fp.length)

/-- `parseFloat(result.summary.success_rate.replace('%',''))`. -/
def parseRate (s : String) : ℚ :=
  (parseFloatQ (replacePct s)).getD 0

/-- The comparator `(a, b) => b.success_rate - a.success_rate`: `a` may stay
before `b` iff `b`'s rate is at most `a`'s.  `Array.prototype.sort` is stable,
so the sort is modelled by stable insertion sort with this relation. -/
def rankRel (a b : String × ℚ) : Prop :=
  b.2 ≤ a.2

instance : DecidableRel rankRel := fun a b => inferInstanceAs (Decidable (b.2 ≤ a.2))

instance : IsTotal (String × ℚ) rankRel :=
  ⟨fun a b => (le_total b.2 a.2).imp (fun h => h) (fun h => h)⟩

instance : IsTrans (String × ℚ) rankRel :=
  ⟨fun _ _ _ h1 h2 => le_trans h2 h1⟩

/-- The comparison summary (test-setup.js 472-497).  `best_performer` and
`average_success_rate` are `none` when no provider has a valid report (the
source leaves `null` and the number `0` in that case); the average is kept as
the exact quotient the `toFixed(1)` call renders. -/
structure CompSummary where
  best_performer : Option String
  performance_ranking : List (String × ℚ)
  average_success_rate : Option ℚ
deriving DecidableEq

/-- `SWEBenchPoC.generateComparisonSummary` (test-setup.js 472-497): filter
out entries with an error, parse each remaining rate, stable-sort descending,
then read off best performer, ranking and mean rate. -/
def generateComparisonSummary (providerResults : List (String × PRes)) : CompSummary :=
  let validResults :=
    List.insertionSort rankRel
      ((providerResults.filter (fun e => e.2.error.isNone)).map
        (fun e => (e.1, parseRate e.2.success_rate)))
  match validResults with
  | [] => { best_performer := none, performance_ranking := [], average_success_rate := none }
  | top :: rest =>
    { best_performer := some top.1
      performance_ranking := top :: rest
      average_success_rate :=
        some (((top :: rest).foldl (fun s e => s + e.2) 0) / ((top :: rest).length : ℚ)) }

/-! ## Supporting lemmas -/

theorem erase_append_self {a : String} {l : List String} (h : a ∉ l) :
    (l ++ [a]).erase a = l := by
  induction l with
  | nil => simp
  | cons x xs ih =>
    have hxa : x ≠ a := by
      intro he
      exact h (he ▸ List.mem_cons_self x xs)
    have hxs : a ∉ xs := fun hm => h (List.mem_cons_of_mem x hm)
    have hb : (x == a) = false := beq_eq_false_iff_ne.mpr hxa
    simp [List.erase_cons, hb, ih hxs]

theorem validateSyntax_fst (env : Env) (fs : List String) :
    (validateSyntax env fs).1 = env.syntaxExec := by
  unfold validateSyntax
  cases env.syntaxExec <;> simp

theorem runTestCaseStep_fst (env : Env) (i : Nat) (tc : String) (fs fs2 : List String) :
    (runTestCaseStep env i tc fs).1 = (runTestCaseStep env i tc fs2).1 := by
  unfold runTestCaseStep
  cases env.testExec i <;> simp

theorem runTestCases_fst (env : Env) (i : Nat) (tcs : List String) (fs fs2 : List String) :
    (runTestCases env i tcs fs).1 = (runTestCases env i tcs fs2).1 := by
  induction tcs generalizing i fs fs2 with
  | nil => rfl
  | cons tc rest ih =>
    unfold runTestCases
    simp only
    rw [runTestCaseStep_fst env i tc fs fs2, ih (i + 1) _ _]

theorem runTestCases_length (env : Env) (i : Nat) (tcs : List String) (fs : List String) :
    (runTestCases env i tcs fs).1.length = tcs.length := by
  induction tcs generalizing i fs with
  | nil => rfl
  | cons tc rest ih =>
    unfold runTestCases
    simp [ih]

theorem runTestCases_getElemQ (env : Env) (i : Nat) (tcs : List String) (fs : List String)
    (k : Nat) :
    (runTestCases env i tcs fs).1[k]? =
      (tcs[k]?).map (fun tc => (runTestCaseStep env (i + k) tc []).1) := by
  induction tcs generalizing i fs k with
  | nil => simp [runTestCases]
  | cons tc rest ih =>
    unfold runTestCases
    cases k with
    | zero =>
      simpa using runTestCaseStep_fst env i tc fs []
    | succ k2 =>
      have := ih (i + 1) ((runTestCaseStep env i tc fs).2) k2
      simpa [Nat.add_comm, Nat.add_assoc, Nat.add_left_comm] using this

/-! ## C9 -/

/-- C9: for every agent variant (local ollama and the three cloud variants),
`testConnection` never propagates an exception: whatever the outcome of the
underlying `generate` call, the function returns normally (an `ok` boolean),
and on any `generate` failure that boolean is `false`. -/
theorem testConnection_never_throws (o : Except String String) :
    (∃ b, OllamaAgent.testConnection o = .ok b) ∧
    (∃ b, OpenAIAgent.testConnection o = .ok b) ∧
    (∃ b, GeminiAgent.testConnection o = .ok b) ∧
    (∃ b, ClaudeAgent.testConnection o = .ok b) ∧
    (∀ m, o = .error m →
      OllamaAgent.testConnection o = .ok false ∧
      OpenAIAgent.testConnection o = .ok false ∧
      GeminiAgent.testConnection o = .ok false ∧
      ClaudeAgent.testConnection o = .ok false) := by
  cases o with
  | ok r =>
    exact ⟨⟨_, rfl⟩, ⟨_, rfl⟩, ⟨_, rfl⟩, ⟨_, rfl⟩, fun m hm => by cases hm⟩
  | error m =>
    exact ⟨⟨_, rfl⟩, ⟨_, rfl⟩, ⟨_, rfl⟩, ⟨_, rfl⟩, fun m2 hm => ⟨rfl, rfl, rfl, rfl⟩⟩

/-- Witness for C9 at a concrete failed `generate` call. -/
theorem testConnection_never_throws_witness :
    OllamaAgent.testConnection (.error "connect ECONNREFUSED") = .ok false ∧
    OpenAIAgent.testConnection (.error "connect ECONNREFUSED") = .ok false ∧
    GeminiAgent.testConnection (.error "connect ECONNREFUSED") = .ok false ∧
    ClaudeAgent.testConnection (.error "connect ECONNREFUSED") = .ok false :=
  (testConnection_never_throws (.error "connect ECONNREFUSED")).2.2.2.2
    "connect ECONNREFUSED" rfl

/-! ## C3 -/

/-- A concrete effect oracle on which the syntax check subprocess fails and
every test subprocess rejects. -/
def envFail : Env :=
  { analyze := .ok "", patchGen := .ok "", syntaxExec := false,
    syntaxTmp := "/tmp/validate_1.py",
    testExec := fun _ => .err "Command failed: python3",
    testTmp := fun i => "/tmp/test_1_" ++ Nat.repr i ++ ".py" }

/-- A concrete effect oracle on which both subprocesses succeed. -/
def envPass : Env :=
  { analyze := .ok "", patchGen := .ok "", syntaxExec := true,
    syntaxTmp := "/tmp/validate_1.py",
    testExec := fun _ => .ok "TEST_PASSED\n" "",
    testTmp := fun i => "/tmp/test_1_" ++ Nat.repr i ++ ".py" }

/-- Counterexample to C3 as stated: on the failure path (the checker
subprocess exits nonzero) `validateSyntax` returns with its temporary file
still present, and a test-case execution whose subprocess rejects likewise
leaves its temporary file behind. -/
theorem tempfile_not_deleted_on_failure :
    (validateSyntax envFail []).1 = false ∧
    (validateSyntax envFail []).2 = ["/tmp/validate_1.py"] ∧
    (runTestCases envFail 0 ["assert calc(10,2)==5.0"] []).2 = ["/tmp/test_1_0.py"] := by
  refine ⟨rfl, rfl, ?_⟩
  rfl

/-- C3 amended: the temporary file is deleted before returning on the success
path only; on a failure path (checker or test subprocess rejects) the function
returns with the temporary file still present. -/
theorem tempfile_cleanup_amended (env : Env) (fs : List String) :
    (env.syntaxTmp ∉ fs →
      (validateSyntax env fs).2 = (if env.syntaxExec then fs else fs ++ [env.syntaxTmp])) ∧
    (∀ i tc, env.testTmp i ∉ fs →
      (runTestCaseStep env i tc fs).2 =
        (match env.testExec i with
         | .ok _ _ => fs
         | .err _ => fs ++ [env.testTmp i])) := by
  constructor
  · intro hmem
    unfold validateSyntax
    cases hse : env.syntaxExec with
    | false => simp
    | true => simp [erase_append_self hmem]
  · intro i tc hmem
    unfold runTestCaseStep
    cases hte : env.testExec i with
    | ok out errS => simp [erase_append_self hmem]
    | err m => simp

/-- Witness for C3 amended: at the concrete oracles, the success path removes
the file and the failure path leaks it. -/
theorem tempfile_cleanup_amended_witness :
    (validateSyntax envPass []).2 = [] ∧
    (validateSyntax envFail []).2 = ["/tmp/validate_1.py"] ∧
    (runTestCaseStep envFail 0 "assert calc(10,2)==5.0" []).2 = ["/tmp/test_1_0.py"] := by
  refine ⟨?_, ?_, ?_⟩
  · have h := (tempfile_cleanup_amended envPass []).1 (by simp)
    simpa [envPass] using h
  · have h := (tempfile_cleanup_amended envFail []).1 (by simp)
    simpa [envFail] using h
  · have h := (tempfile_cleanup_amended envFail []).2 0 "assert calc(10,2)==5.0" (by simp)
    simpa [envFail] using h

/-! ## C7 -/

/-- C7: `runTestCases` yields exactly one `TestResult` per test case, in
order (`test_id` = position, `test_case` echoed); a result is `passed` exactly
when its subprocess resolved with the sentinel in stdout and empty stderr; a
rejected subprocess yields `passed = false` with the error recorded; and each
result is a function of that test case's own subprocess outcome alone, so no
failure stops the remaining tests from being executed and reported. -/
theorem runTestCases_spec (env : Env) (tcs : List String) (fs : List String) :
    (runTestCases env 0 tcs fs).1.length = tcs.length ∧
    (∀ k tc, tcs[k]? = some tc →
      (runTestCases env 0 tcs fs).1[k]? = some ((runTestCaseStep env k tc []).1)) ∧
    (∀ k r, (runTestCases env 0 tcs fs).1[k]? = some r →
      (r.test_id = k ∧ tcs[k]? = some r.test_case ∧
       (r.passed = true ↔
         ∃ out errS, env.testExec k = .ok out errS ∧
           containsSub out.data "TEST_PASSED".data = true ∧ errS = "") ∧
       (∀ m, env.testExec k = .err m → r.passed = false ∧ r.error = some m))) := by
  refine ⟨runTestCases_length env 0 tcs fs, ?_, ?_⟩
  · intro k tc htc
    rw [runTestCases_getElemQ, htc]
    simp
  · intro k r hr
    rw [runTestCases_getElemQ] at hr
    cases htc : tcs[k]? with
    | none => rw [htc] at hr; cases hr
    | some tc =>
      rw [htc, Option.map_some'] at hr
      have hr2 : r = (runTestCaseStep env (0 + k) tc []).1 := (Option.some_inj.mp hr).symm
      rw [Nat.zero_add] at hr2
      subst hr2
      unfold runTestCaseStep
      cases hte : env.testExec k with
      | ok out errS =>
        refine ⟨rfl, rfl, ?_, ?_⟩
        · simp only []
          constructor
          · intro hp
            refine ⟨out, errS, rfl, ?_, ?_⟩
            · exact (Bool.and_eq_true _ _ ▸ hp).1
            · have := (Bool.and_eq_true _ _ ▸ hp).2
              simpa using this
          · rintro ⟨out2, errS2, heq, hc, he⟩
            cases heq
            simp [hc, he]
        · intro m hm
          cases hm
      | err m =>
        refine ⟨rfl, rfl, ?_, ?_⟩
        · simp only []
          constructor
          · intro hp
            cases hp
          · rintro ⟨out2, errS2, heq, _, _⟩
            cases heq
        · intro m2 hm
          cases hm
          exact ⟨rfl, rfl⟩

/-! ## C6 -/

theorem evaluateProblem_problem_id (env : Env) (p : Problem) (fs : List String) :
    (evaluateProblem env p fs).1.problem_id = p.id := by
  unfold evaluateProblem
  simp only [validateSyntax_fst]
  repeat
    first
    | rfl
    | split

theorem evaluateProblem_fst_indep (env : Env) (p : Problem) (fs fs2 : List String) :
    (evaluateProblem env p fs).1 = (evaluateProblem env p fs2).1 := by
  unfold evaluateProblem
  simp only [validateSyntax_fst]
  repeat
    first
    | rfl
    | (rw [runTestCases_fst env 0 p.test_cases (validateSyntax env fs).2
        (validateSyntax env fs2).2])
    | split

theorem evaluateBatch_length (envOf : Nat → Env) (i : Nat) (ps : List Problem)
    (fs : List String) : (evaluateBatch envOf i ps fs).1.length = ps.length := by
  induction ps generalizing i fs with
  | nil => rfl
  | cons p rest ih =>
    unfold evaluateBatch
    simp [ih]

theorem evaluateBatch_getElemQ (envOf : Nat → Env) (i : Nat) (ps : List Problem)
    (fs : List String) (k : Nat) :
    (evaluateBatch envOf i ps fs).1[k]? =
      (ps[k]?).map (fun p => (evaluateProblem (envOf (i + k)) p []).1) := by
  induction ps generalizing i fs k with
  | nil => simp [evaluateBatch]
  | cons p rest ih =>
    unfold evaluateBatch
    cases k with
    | zero =>
      simpa using evaluateProblem_fst_indep (envOf i) p fs []
    | succ k2 =>
      have := ih (i + 1) ((evaluateProblem (envOf i) p fs).2) k2
      simpa [Nat.add_comm, Nat.add_assoc, Nat.add_left_comm] using this

/-- C6: `evaluateBatch` evaluates every problem in input order and returns a
result list of the same length, the k-th result being exactly the
`evaluateProblem` outcome for the k-th problem under its own effect oracle
(so an individual failure never stops the batch), with
`results[k].problem_id = problems[k].id` for every index. -/
theorem evaluateBatch_spec (envOf : Nat → Env) (ps : List Problem) (fs : List String) :
    (evaluateBatch envOf 0 ps fs).1.length = ps.length ∧
    (∀ k p2, ps[k]? = some p2 →
      (evaluateBatch envOf 0 ps fs).1[k]? = some ((evaluateProblem (envOf k) p2 []).1) ∧
      ∃ r, (evaluateBatch envOf 0 ps fs).1[k]? = some r ∧ r.problem_id = p2.id) := by
  refine ⟨evaluateBatch_length envOf 0 ps fs, ?_⟩
  intro k p2 hp2
  have h := evaluateBatch_getElemQ envOf 0 ps fs k
  rw [hp2, Option.map_some', Nat.zero_add] at h
  exact ⟨h, ⟨_, h, evaluateProblem_problem_id _ _ _⟩⟩

/-! ## C1 -/

theorem dropWhile_trimChars (l : List Char) :
    List.dropWhile isWS (trimChars l) = trimChars l := by
  unfold trimChars
  rw [List.dropWhile_eq_self_iff]
  intro hl
  have hpre := List.rdropWhile_prefix isWS (List.dropWhile isWS l)
  have hd : 0 < (List.dropWhile isWS l).length :=
    Nat.lt_of_lt_of_le hl hpre.length_le
  have hnot := List.dropWhile_get_zero_not isWS l hd
  simp only [List.get_eq_getElem] at hnot ⊢
  rw [List.IsPrefix.getElem hpre hl]
  exact hnot

theorem trimChars_idem (l : List Char) : trimChars (trimChars l) = trimChars l := by
  have h1 : List.dropWhile isWS (trimChars l) = trimChars l := dropWhile_trimChars l
  show List.rdropWhile isWS (List.dropWhile isWS (trimChars l)) = trimChars l
  rw [h1]
  unfold trimChars
  exact List.rdropWhile_idempotent isWS _

theorem jsTrim_mk_trimChars (l : List Char) : jsTrim ⟨trimChars l⟩ = ⟨trimChars l⟩ := by
  unfold jsTrim
  simp only [trimChars_idem]

theorem scanFor_eq_some {f : List Char → Option (List Char)} {l r : List Char}
    (h : scanFor f l = some r) : ∃ t, f t = some r := by
  induction l with
  | nil => exact ⟨[], h⟩
  | cons c cs ih =>
    unfold scanFor at h
    cases hf : f (c :: cs) with
    | some r2 =>
      rw [hf] at h
      exact ⟨c :: cs, hf ▸ h⟩
    | none =>
      rw [hf] at h
      exact ih h

theorem matchFixedCodeAt_trimmed {t r : List Char} (h : matchFixedCodeAt t = some r) :
    ∃ x, r = trimChars x := by
  unfold matchFixedCodeAt at h
  cases h1 : prefixMatchCI true "FIXED_CODE:".data t with
  | none => rw [h1] at h; cases h
  | some r1 =>
    rw [h1] at h
    rw [Option.some_bind] at h
    simp only [] at h
    cases h2 : prefixMatchCI true "```python".data (r1.dropWhile isWS) with
    | none => rw [h2] at h; cases h
    | some r3 =>
      rw [h2, Option.some_bind] at h
      cases h3 : splitOnFirst false "```".data r3 with
      | none => rw [h3] at h; cases h
      | some pr =>
        rw [h3, Option.map_some'] at h
        exact ⟨pr.1, (Option.some_inj.mp h).symm⟩

theorem extract_trimmed {a s : String} (h : extractFixedCode a = some s) :
    jsTrim s = s := by
  unfold extractFixedCode at h
  cases h1 : fixedCodeMatch a with
  | some r =>
    rw [h1] at h
    cases h
    unfold fixedCodeMatch at h1
    cases h2 : scanFor matchFixedCodeAt a.data with
    | none => rw [h2] at h1; cases h1
    | some l =>
      rw [h2] at h1
      rw [Option.map_some'] at h1
      cases h1
      obtain ⟨t, ht⟩ := scanFor_eq_some h2
      obtain ⟨x, hx⟩ := matchFixedCodeAt_trimmed ht
      rw [hx]
      exact jsTrim_mk_trimChars x
  | none =>
    rw [h1] at h
    cases h3 : codeBlockMatch a with
    | some r =>
      rw [h3] at h
      cases h
      unfold codeBlockMatch at h3
      cases h4 : splitOnFirst false "```python".data a.data with
      | none => rw [h4] at h3; cases h3
      | some pr =>
        rw [h4, Option.some_bind] at h3
        cases h5 : splitOnFirst false "```".data pr.2 with
        | none => rw [h5] at h3; cases h3
        | some pr2 =>
          rw [h5, Option.map_some'] at h3
          cases h3
          exact jsTrim_mk_trimChars pr2.1
    | none =>
      rw [h3] at h
      unfold lineScanFallback at h
      by_cases h6 : ((splitNL a.data).dropWhile (fun l => !lineOpensCode l)).isEmpty
      · simp only [h6, if_true] at h; cases h
      · simp only [h6, if_false] at h
        cases h
        exact jsTrim_mk_trimChars _

theorem string_len_zero (s : String) : s.length = 0 ↔ s = "" := by
  constructor
  · intro h
    cases s with
    | mk data =>
      have h2 : data.length = 0 := h
      have hd : data = [] := List.length_eq_zero.mp h2
      rw [hd]
  · intro h
    rw [h]
    rfl

theorem filter_passed_pos (trs : List TestResult) :
    0 < (trs.filter (fun t => t.passed)).length ↔ ∃ t ∈ trs, t.passed = true := by
  rw [List.length_pos_iff_exists_mem]
  constructor
  · rintro ⟨t, ht⟩
    have := List.mem_filter.mp ht
    exact ⟨t, this.1, this.2⟩
  · rintro ⟨t, hmem, hp⟩
    exact ⟨t, List.mem_filter.mpr ⟨hmem, hp⟩⟩

/-- C1: for every completed `EvaluationResult` produced by `evaluateProblem`,
`success` is true iff no pipeline error was recorded, the extracted fix is a
non-empty non-whitespace string, and either the problem had no test cases or
at least one `TestResult` in `test_results` has `passed = true`. -/
theorem evaluateProblem_success_iff (env : Env) (p : Problem) (fs : List String) :
    ((evaluateProblem env p fs).1.success = true ↔
      ((evaluateProblem env p fs).1.error = none ∧
       (∃ fix, (evaluateProblem env p fs).1.generated_fix = some fix ∧ jsTrim fix ≠ "") ∧
       (p.test_cases = [] ∨
        ∃ t ∈ (evaluateProblem env p fs).1.test_results, t.passed = true))) := by
  unfold evaluateProblem
  simp only [validateSyntax_fst]
  split
  · simp
  · split
    · simp
    · rename_i analysis fixedCode hext
      split
      · simp
      · rename_i hfc
        split
        · simp
        · split
          · simp
          · rename_i hsv
            have htrim : jsTrim fixedCode = fixedCode := extract_trimmed hext
            have hjne : jsTrim fixedCode ≠ "" := by
              rw [htrim]
              exact hfc
            have hlenF : ¬ fixedCode.length = 0 := fun h0 =>
              hfc ((string_len_zero fixedCode).mp h0)
            split
            · rename_i htc
              have htcne : p.test_cases ≠ [] := by
                intro he
                rw [he] at htc
                exact absurd htc (by simp)
              have hlen2 :
                  (runTestCases env 0 p.test_cases (validateSyntax env fs).2).1.length =
                    p.test_cases.length := runTestCases_length env 0 p.test_cases _
              simp only [determineSucess, Option.isSome_none, Bool.false_eq_true, if_false,
                htrim]
              rw [if_neg hlenF, hlen2, if_pos htc]
              constructor
              · intro h
                refine ⟨by trivial, ⟨fixedCode, rfl, hjne⟩, Or.inr ?_⟩
                exact (filter_passed_pos _).mp (of_decide_eq_true h)
              · rintro ⟨-, -, hor⟩
                cases hor with
                | inl he => exact absurd he htcne
                | inr hex => exact decide_eq_true ((filter_passed_pos _).mpr hex)
            · rename_i htc
              have htce : p.test_cases = [] :=
                List.length_eq_zero.mp (Nat.eq_zero_of_not_pos htc)
              simp only [determineSucess, Option.isSome_none, Bool.false_eq_true, if_false,
                htrim]
              rw [if_neg hlenF]
              constructor
              · intro _
                exact ⟨by trivial, ⟨fixedCode, rfl, hjne⟩, Or.inl htce⟩
              · intro _
                simp

/-- A problem with one test case (end-to-end scenario A of the spec). -/
def problemA : Problem :=
  { id := "div-bug-1", problem_statement := "calc divides without a zero check",
    base_code := "def calc(a,b):\n return a/b", filename := some "main.py",
    test_cases := ["assert calc(10,2)==5.0"] }

/-- Witness for C6: a singleton batch under the all-passing oracle yields one
result carrying the problem id. -/
theorem evaluateBatch_spec_witness :
    (evaluateBatch (fun _ => envPass) 0 [problemA] []).1.length = 1 ∧
    ∃ r, (evaluateBatch (fun _ => envPass) 0 [problemA] []).1[0]? = some r ∧
      r.problem_id = "div-bug-1" := by
  obtain ⟨h1, h2⟩ := evaluateBatch_spec (fun _ => envPass) [problemA] []
  obtain ⟨ha, r, hr, hid⟩ := h2 0 problemA rfl
  exact ⟨h1, r, hr, hid⟩

/-- Witness for C7: one test case under the all-passing oracle yields one
result with `passed = true`. -/
theorem runTestCases_spec_witness :
    (runTestCases envPass 0 ["assert calc(10,2)==5.0"] []).1.length = 1 ∧
    ∃ r, (runTestCases envPass 0 ["assert calc(10,2)==5.0"] []).1[0]? = some r ∧
      r.passed = true := by
  obtain ⟨hlen, hidx, hchar⟩ := runTestCases_spec envPass ["assert calc(10,2)==5.0"] []
  have h := hidx 0 "assert calc(10,2)==5.0" rfl
  refine ⟨hlen, _, h, ?_⟩
  have h2 := hchar 0 _ h
  exact h2.2.2.1.mpr ⟨"TEST_PASSED\n", "", rfl, by decide, rfl⟩

/-! ## C5 and C10 -/

theorem jsPresent_eq_some {o : Option String} {m : String} (h : jsPresent o = some m) :
    o = some m := by
  cases o with
  | none => cases h
  | some s =>
    simp only [jsPresent] at h
    split_ifs at h with hs
    exact h

theorem validateEnvironment_cloud (env : ProcEnv) (provider keyVar : String)
    (h : getRequiredEnvVars (lowerStr provider) = some [keyVar]) :
    validateEnvironment env provider =
      (if envMissing env keyVar then
        { valid := false, missing := [keyVar],
          error := some ("Missing environment variables: " ++ keyVar) }
      else { valid := true, missing := [], error := none }) := by
  unfold validateEnvironment
  rw [h]
  cases hm : envMissing env keyVar with
  | true => simp [List.filter, hm, joinComma]
  | false => simp [List.filter, hm]

theorem createValidatedAgent_of_valid (env : ProcEnv) (provider : String)
    (opts : AgentOptions) (hv : validateEnvironment env provider = ⟨true, [], none⟩) :
    createValidatedAgent env provider opts =
      (let options1 :=
        match jsPresent opts.model with
        | some _ => opts
        | none => { opts with model := getDefaultModels (lowerStr provider) }
       let modelOk :=
        match options1.model with
        | some m => isValidProviderModel provider m
        | none => false
       if !modelOk then
        (.error ("Invalid model " ++ showOptString options1.model ++ " for provider " ++
          provider ++ ". Available models: " ++
          joinComma ((getAvailableModels (lowerStr provider)).getD [])), options1)
       else (createAgent env provider options1, options1)) := by
  unfold createValidatedAgent
  rw [hv]
  rfl

/-- C5: for each cloud provider tag, when the required credential variable is
absent from the environment `createValidatedAgent` fails synchronously (pure
construction, no agent built) with an error naming the missing variable;
when the environment is valid it fills in the per-provider default model if
none was given, rejects a model off the allow-list with an error listing the
allowed models, and otherwise delegates to `createAgent`. -/
theorem createValidatedAgent_spec (env : ProcEnv) (opts : AgentOptions) :
    (∀ provider keyVar,
      (provider, keyVar) ∈ ([("openai", "OPENAI_API_KEY"), ("gemini", "GEMINI_API_KEY"),
        ("claude", "ANTHROPIC_API_KEY")] : List (String × String)) →
      env keyVar = none →
      (createValidatedAgent env provider opts).1 =
        .error ("Missing environment variables: " ++ keyVar)) ∧
    (∀ provider, provider ∈ (["ollama", "openai", "gemini", "claude"] : List String) →
      (validateEnvironment env provider).valid = true →
      ((jsPresent opts.model = none →
        (createValidatedAgent env provider opts).2.model = getDefaultModels provider ∧
        (createValidatedAgent env provider opts).1 =
          createAgent env provider ((createValidatedAgent env provider opts).2)) ∧
       (∀ m, jsPresent opts.model = some m → isValidProviderModel provider m = false →
        (createValidatedAgent env provider opts).1 =
          .error ("Invalid model " ++ m ++ " for provider " ++ provider ++
            ". Available models: " ++
            joinComma ((getAvailableModels (lowerStr provider)).getD []))) ∧
       (∀ m, jsPresent opts.model = some m → isValidProviderModel provider m = true →
        (createValidatedAgent env provider opts).1 = createAgent env provider opts))) := by
  constructor
  · intro provider keyVar hmem hnone
    have hm3 : (provider = "openai" ∧ keyVar = "OPENAI_API_KEY") ∨
        (provider = "gemini" ∧ keyVar = "GEMINI_API_KEY") ∨
        (provider = "claude" ∧ keyVar = "ANTHROPIC_API_KEY") := by
      simpa using hmem
    have hmiss : envMissing env keyVar = true := by
      simp [envMissing, jsPresent, hnone]
    rcases hm3 with ⟨hp, hk⟩ | ⟨hp, hk⟩ | ⟨hp, hk⟩
    · subst hp; subst hk
      unfold createValidatedAgent
      rw [validateEnvironment_cloud env "openai" "OPENAI_API_KEY" (by decide), hmiss]
      simp [showOptString]
    · subst hp; subst hk
      unfold createValidatedAgent
      rw [validateEnvironment_cloud env "gemini" "GEMINI_API_KEY" (by decide), hmiss]
      simp [showOptString]
    · subst hp; subst hk
      unfold createValidatedAgent
      rw [validateEnvironment_cloud env "claude" "ANTHROPIC_API_KEY" (by decide), hmiss]
      simp [showOptString]
  · intro provider hmem hvalid
    have hm4 : provider = "ollama" ∨ provider = "openai" ∨ provider = "gemini" ∨
        provider = "claude" := by simpa using hmem
    have key : ∀ keyVar, getRequiredEnvVars (lowerStr provider) = some [keyVar] →
        validateEnvironment env provider = ⟨true, [], none⟩ := by
      intro keyVar hreq
      have hv := validateEnvironment_cloud env provider keyVar hreq
      cases hmk : envMissing env keyVar with
      | true =>
        rw [hv, hmk] at hvalid
        simp at hvalid
      | false =>
        rw [hv, hmk]
        rfl
    have hVE : validateEnvironment env provider = ⟨true, [], none⟩ := by
      rcases hm4 with hp | hp | hp | hp <;> subst hp
      · rfl
      · exact key "OPENAI_API_KEY" (by decide)
      · exact key "GEMINI_API_KEY" (by decide)
      · exact key "ANTHROPIC_API_KEY" (by decide)
    rw [createValidatedAgent_of_valid env provider opts hVE]
    refine ⟨?_, ?_, ?_⟩
    · intro hnm
      rw [hnm]
      rcases hm4 with hp | hp | hp | hp <;> subst hp <;>
        cases opts <;> simp [getDefaultModels, lowerStr, isValidProviderModel,
          getAvailableModels, showOptString]
    · intro m hm hbad
      have hom : opts.model = some m := jsPresent_eq_some hm
      rw [hm]
      simp only [hom, hbad]
      simp [showOptString]
    · intro m hm hok
      have hom : opts.model = some m := jsPresent_eq_some hm
      rw [hm]
      simp only [hom, hok]
      simp

/-- Witness for C5: with an empty environment, requesting an openai agent
fails naming the missing variable; with both keys present and no model given,
the claude default is filled in and construction succeeds. -/
theorem createValidatedAgent_spec_witness :
    (createValidatedAgent (fun _ => none) "openai" {}).1 =
      .error ("Missing environment variables: OPENAI_API_KEY") ∧
    (createValidatedAgent
        (fun v => if v = "ANTHROPIC_API_KEY" then some "ak-test" else none)
        "claude" {}).2.model = some "claude-3-sonnet-20240229" := by
  constructor
  · exact (createValidatedAgent_spec (fun _ => none) {}).1 "openai" "OPENAI_API_KEY"
      (by simp) rfl
  · have h := ((createValidatedAgent_spec
      (fun v => if v = "ANTHROPIC_API_KEY" then some "ak-test" else none) {}).2 "claude"
      (by simp) (by decide)).1 rfl
    exact h.1

/-- C10: when `createValidatedAgent` is called without a model, it writes the
provider default into the caller's `options` object before constructing the
agent, so the object comes back changed; reusing the same object for a
different provider carries the previously resolved model over (and here makes
the second call fail that provider's allow-list check). -/
theorem createValidatedAgent_mutates_options (env : ProcEnv) (opts : AgentOptions)
    (hkey : ∃ k, env "OPENAI_API_KEY" = some k ∧ k ≠ "")
    (hmodel : opts.model = none) :
    (createValidatedAgent env "openai" opts).2.model = some "gpt-4" ∧
    ((createValidatedAgent env "claude" ((createValidatedAgent env "openai" opts).2)).2.model =
      some "gpt-4") ∧
    (∀ k2, env "ANTHROPIC_API_KEY" = some k2 → k2 ≠ "" →
      (createValidatedAgent env "claude" ((createValidatedAgent env "openai" opts).2)).1 =
        .error ("Invalid model gpt-4 for provider claude. Available models: " ++
          joinComma ["claude-3-sonnet-20240229", "claude-3-opus-20240229",
            "claude-3-haiku-20240307", "claude-3-5-sonnet-20241022"])) := by
  obtain ⟨k, hk, hkne⟩ := hkey
  have hVEo : validateEnvironment env "openai" = ⟨true, [], none⟩ := by
    rw [validateEnvironment_cloud env "openai" "OPENAI_API_KEY" (by decide)]
    simp [envMissing, jsPresent, hk, hkne]
  have h1 : (createValidatedAgent env "openai" opts).2 =
      { opts with model := some "gpt-4" } := by
    rw [createValidatedAgent_of_valid env "openai" opts hVEo]
    simp only [hmodel, jsPresent]
    simp [getDefaultModels, lowerStr, isValidProviderModel, getAvailableModels]
  refine ⟨by rw [h1], ?_, ?_⟩
  · rw [h1]
    unfold createValidatedAgent
    cases hV : (validateEnvironment env "claude").valid with
    | false => simp [hV]
    | true =>
      have hVE2 : validateEnvironment env "claude" = ⟨true, [], none⟩ := by
        have hv := validateEnvironment_cloud env "claude" "ANTHROPIC_API_KEY" (by decide)
        cases hmk : envMissing env "ANTHROPIC_API_KEY" with
        | true => rw [hv, hmk] at hV; simp at hV
        | false => rw [hv, hmk]; rfl
      rw [hVE2]
      simp [jsPresent, isValidProviderModel, lowerStr, getAvailableModels, showOptString]
  · intro k2 hk2 hk2ne
    rw [h1]
    have hVEc : validateEnvironment env "claude" = ⟨true, [], none⟩ := by
      rw [validateEnvironment_cloud env "claude" "ANTHROPIC_API_KEY" (by decide)]
      simp [envMissing, jsPresent, hk2, hk2ne]
    rw [createValidatedAgent_of_valid env "claude" _ hVEc]
    simp [jsPresent, isValidProviderModel, lowerStr, getAvailableModels, showOptString,
      joinComma]

/-- Witness for C10 at a concrete environment carrying both keys. -/
theorem createValidatedAgent_mutates_options_witness :
    (createValidatedAgent
        (fun v => if v = "OPENAI_API_KEY" then some "sk-test"
          else if v = "ANTHROPIC_API_KEY" then some "ak-test" else none)
        "openai" {}).2.model = some "gpt-4" ∧
    (createValidatedAgent
        (fun v => if v = "OPENAI_API_KEY" then some "sk-test"
          else if v = "ANTHROPIC_API_KEY" then some "ak-test" else none)
        "claude"
        ((createValidatedAgent
          (fun v => if v = "OPENAI_API_KEY" then some "sk-test"
            else if v = "ANTHROPIC_API_KEY" then some "ak-test" else none)
          "openai" {}).2)).1 =
      .error ("Invalid model gpt-4 for provider claude. Available models: " ++
        joinComma ["claude-3-sonnet-20240229", "claude-3-opus-20240229",
          "claude-3-haiku-20240307", "claude-3-5-sonnet-20241022"]) := by
  have h := createValidatedAgent_mutates_options
    (fun v => if v = "OPENAI_API_KEY" then some "sk-test"
      else if v = "ANTHROPIC_API_KEY" then some "ak-test" else none)
    {} ⟨"sk-test", rfl, by decide⟩ rfl
  exact ⟨h.1, h.2.2 "ak-test" rfl (by decide)⟩

/-! ## C8 -/

/-- C8: `generateReport` renders `success_rate` as `"0%"` for an empty result
list (the guard `total > 0` keeps the division from ever being evaluated),
and otherwise as the percentage `successful / total * 100` rounded half-up to
a whole number of hundredths `n` — characterised by the floor inequalities
`n ≤ 100·rate + 1/2 < n + 1` — rendered with two decimal places. -/
theorem generateReport_success_rate (results : List EvaluationResult) :
    ∃ n : ℕ,
      (generateReport results).summary.success_rate =
        (if results.length = 0 then "0%" else fmtHundredths n ++ "%") ∧
      (n : ℚ) ≤ ((results.filter (fun r => r.success)).length : ℚ) /
          (results.length : ℚ) * 100 * 100 + 1 / 2 ∧
      ((results.filter (fun r => r.success)).length : ℚ) /
          (results.length : ℚ) * 100 * 100 + 1 / 2 < (n : ℚ) + 1 := by
  have h0 : (0 : ℚ) ≤ ((results.filter (fun r => r.success)).length : ℚ) /
      (results.length : ℚ) * 100 * 100 + 1 / 2 := by positivity
  have hnn : 0 ≤ ⌊((results.filter (fun r => r.success)).length : ℚ) /
      (results.length : ℚ) * 100 * 100 + 1 / 2⌋ := Int.floor_nonneg.mpr h0
  have hcast : ((Int.toNat ⌊((results.filter (fun r => r.success)).length : ℚ) /
        (results.length : ℚ) * 100 * 100 + 1 / 2⌋ : ℕ) : ℚ) =
      ((⌊((results.filter (fun r => r.success)).length : ℚ) /
        (results.length : ℚ) * 100 * 100 + 1 / 2⌋ : ℤ) : ℚ) := by
    exact_mod_cast Int.toNat_of_nonneg hnn
  refine ⟨Int.toNat ⌊((results.filter (fun r => r.success)).length : ℚ) /
    (results.length : ℚ) * 100 * 100 + 1 / 2⌋, ?_, ?_, ?_⟩
  · unfold generateReport toFixed2
    by_cases h : results.length = 0
    · simp [h]
    · simp [h, Nat.pos_of_ne_zero h, mul_assoc]
  · rw [hcast]
    exact Int.floor_le _
  · rw [hcast]
    exact Int.lt_floor_add_one _

example : toFixed2 ((2 : ℚ) / 3 * 100) = "66.67" := by
  have h : ⌊(2 : ℚ) / 3 * 100 * 100 + 1 / 2⌋ = 6667 := by norm_num
  rw [toFixed2, h]
  decide

example : (generateReport []).summary.success_rate = "0%" := by decide

/-! ## C2 -/

/-- Case-insensitive substring test, used to state that an analysis contains
no `FIXED_CODE:` label anywhere. -/
def hasSubCI (s pat : String) : Bool :=
  (splitOnFirst true pat.data s.data).isSome

theorem prefixMatchCI_self (pat r : List Char) :
    prefixMatchCI false pat (pat ++ r) = some r := by
  induction pat with
  | nil => rfl
  | cons p ps ih =>
    unfold prefixMatchCI
    simp [ih]

theorem splitOnFirst_cons (ci : Bool) (pat : List Char) (x : Char) (xs : List Char) :
    splitOnFirst ci pat (x :: xs) =
      (match prefixMatchCI ci pat (x :: xs) with
       | some rest => some ([], rest)
       | none =>
         match splitOnFirst ci pat xs with
         | some pr => some (x :: pr.1, pr.2)
         | none => none) := rfl

theorem splitOnFirst_self (pat r : List Char) (hne : pat ≠ []) :
    splitOnFirst false pat (pat ++ r) = some ([], r) := by
  cases pat with
  | nil => exact absurd rfl hne
  | cons c cs =>
    rw [List.cons_append, splitOnFirst_cons]
    have hpm : prefixMatchCI false (c :: cs) (c :: (cs ++ r)) = some r := by
      rw [← List.cons_append]
      exact prefixMatchCI_self (c :: cs) r
    rw [hpm]

theorem splitOnFirst_append_left (c : Char) (pat2 l r : List Char)
    (hl : ∀ x ∈ l, x ≠ c) :
    splitOnFirst false (c :: pat2) (l ++ r) =
      (splitOnFirst false (c :: pat2) r).map (fun pr => (l ++ pr.1, pr.2)) := by
  induction l with
  | nil =>
    simp
  | cons x xs ih =>
    have hx : x ≠ c := hl x (List.mem_cons_self x xs)
    have hxs : ∀ y ∈ xs, y ≠ c := fun y hy => hl y (List.mem_cons_of_mem x hy)
    rw [List.cons_append, splitOnFirst_cons]
    have hpm : prefixMatchCI false (c :: pat2) (x :: (xs ++ r)) = none := by
      simp [prefixMatchCI, Ne.symm hx]
    rw [hpm, ih hxs]
    cases splitOnFirst false (c :: pat2) r with
    | none => rfl
    | some pr => rfl

theorem splitOnFirst_none_prefixMatch {ci : Bool} {pat l : List Char}
    (h : splitOnFirst ci pat l = none) :
    ∀ t, t <:+ l → prefixMatchCI ci pat t = none := by
  induction l with
  | nil =>
    intro t ht
    rw [List.suffix_nil.mp ht]
    unfold splitOnFirst at h
    cases hp : prefixMatchCI ci pat [] with
    | none => rfl
    | some r => rw [hp] at h; cases h
  | cons c cs ih =>
    intro t ht
    unfold splitOnFirst at h
    cases hp : prefixMatchCI ci pat (c :: cs) with
    | some r => rw [hp] at h; cases h
    | none =>
      rw [hp] at h
      have hrec : splitOnFirst ci pat cs = none := by
        cases hr : splitOnFirst ci pat cs with
        | none => rfl
        | some pr => rw [hr] at h; cases h
      rcases List.suffix_cons_iff.mp ht with he | hs
      · rw [he]; exact hp
      · exact ih hrec t hs

theorem scanFor_none {f : List Char → Option (List Char)} {l : List Char}
    (h : ∀ t, t <:+ l → f t = none) : scanFor f l = none := by
  induction l with
  | nil => exact h [] (List.suffix_refl [])
  | cons c cs ih =>
    unfold scanFor
    rw [h (c :: cs) (List.suffix_refl _)]
    exact ih (fun t ht => h t (List.suffix_cons_iff.mpr (Or.inr ht)))

theorem fixedCodeMatch_eq_none {a : String} (h : hasSubCI a "FIXED_CODE:" = false) :
    fixedCodeMatch a = none := by
  unfold hasSubCI at h
  have hnone : splitOnFirst true "FIXED_CODE:".data a.data = none := by
    cases hs : splitOnFirst true "FIXED_CODE:".data a.data with
    | none => rfl
    | some pr => rw [hs] at h; cases h
  unfold fixedCodeMatch
  rw [scanFor_none (fun t ht => ?_)]
  · rfl
  · unfold matchFixedCodeAt
    rw [splitOnFirst_none_prefixMatch hnone t ht]
    rfl

/-- Counterexample to C2 as stated: an analysis whose only fenced code block
carries no language tag (so tier (ii) per the claim should return its
content).  The code requires a ```python tag, so extraction falls through to
the line scan, whose result even drags the closing fence along. -/
theorem extractFixedCode_untagged_counterexample :
    codeBlockMatch "```\ndef f(x):\n  return x\n```" = none ∧
    extractFixedCode "```\ndef f(x):\n  return x\n```" =
      lineScanFallback "```\ndef f(x):\n  return x\n```" ∧
    extractFixedCode "```\ndef f(x):\n  return x\n```" =
      some "def f(x):\n  return x\n```" ∧
    extractFixedCode "```\ndef f(x):\n  return x\n```" ≠
      some "def f(x):\n  return x" := by
  refine ⟨by decide, by decide, by decide, by decide⟩

/-- C2 amended: extraction tries exactly three tiers in order with the first
match deciding — (i) a python-tagged fence after a `FIXED_CODE:` label,
(ii) otherwise the first ```python-tagged fenced block, (iii) otherwise the
line scan; a fenced block qualifies for tiers (i)/(ii) only with the python
tag, and for any analysis of the shape `pre ++ "```python" ++ mid ++ "```" ++
post` with no label and no stray backticks, tier (ii) returns the trimmed
fence content. -/
theorem extractFixedCode_tiers (a : String) :
    (∀ r, fixedCodeMatch a = some r → extractFixedCode a = some r) ∧
    (fixedCodeMatch a = none → ∀ r, codeBlockMatch a = some r →
      extractFixedCode a = some r) ∧
    (fixedCodeMatch a = none → codeBlockMatch a = none →
      extractFixedCode a = lineScanFallback a) ∧
    (∀ pre mid post : String,
      a = pre ++ "```python" ++ mid ++ "```" ++ post →
      hasSubCI a "FIXED_CODE:" = false →
      (∀ c ∈ pre.data, c ≠ '`') → (∀ c ∈ mid.data, c ≠ '`') →
      extractFixedCode a = some (jsTrim mid)) := by
  refine ⟨?_, ?_, ?_, ?_⟩
  · intro r h
    unfold extractFixedCode
    rw [h]
  · intro h1 r h2
    unfold extractFixedCode
    rw [h1, h2]
  · intro h1 h2
    unfold extractFixedCode
    rw [h1, h2]
  · intro pre mid post ha hlabel hpre hmid
    have h1 : fixedCodeMatch a = none := fixedCodeMatch_eq_none hlabel
    have hdata : a.data =
        pre.data ++ ("```python".data ++ (mid.data ++ ("```".data ++ post.data))) := by
      rw [ha]
      simp [String.data_append, List.append_assoc]
    have h2 : codeBlockMatch a = some (jsTrim mid) := by
      unfold codeBlockMatch
      rw [hdata]
      rw [splitOnFirst_append_left '`' "``python".data pre.data _ hpre]
      rw [splitOnFirst_self "```python".data _ (by decide)]
      rw [Option.map_some']
      rw [Option.some_bind]
      simp only []
      rw [splitOnFirst_append_left '`' "``".data mid.data _ hmid]
      rw [splitOnFirst_self "```".data _ (by decide)]
      simp [jsTrim]
    unfold extractFixedCode
    rw [h1, h2]

/-- Witness for C2 amended, at a concrete analysis with a labelless python
fence: tier (ii) fires and returns the trimmed block content. -/
theorem extractFixedCode_tiers_witness :
    extractFixedCode
        ("Here is the fix:\n" ++ "```python" ++ "\ndef f(x):\n  return x + 1\n" ++
          "```" ++ "\nDone.") =
      some "def f(x):\n  return x + 1" := by
  have h := (extractFixedCode_tiers
      ("Here is the fix:\n" ++ "```python" ++ "\ndef f(x):\n  return x + 1\n" ++
        "```" ++ "\nDone.")).2.2.2
    "Here is the fix:\n" "\ndef f(x):\n  return x + 1\n" "\nDone."
    rfl (by decide) (by decide) (by decide)
  rw [h]
  decide

/-! ## C4 -/

theorem filter_orderedInsert_rate (v : ℚ) (x : String × ℚ) (l : List (String × ℚ)) :
    (List.orderedInsert rankRel x l).filter (fun e => e.2 = v) =
      (x :: l).filter (fun e => e.2 = v) := by
  induction l with
  | nil => rfl
  | cons y ys ih =>
    by_cases h : rankRel x y
    · rw [List.orderedInsert, if_pos h]
    · rw [List.orderedInsert, if_neg h]
      have hlt : x.2 < y.2 := lt_of_not_le h
      by_cases py : y.2 = v
      · have px : ¬ x.2 = v := by
          intro px
          rw [px, py] at hlt
          exact lt_irrefl v hlt
        simp [List.filter_cons, py, px, ih]
      · simp [List.filter_cons, py, ih]

theorem filter_insertionSort_rate (v : ℚ) (l : List (String × ℚ)) :
    (List.insertionSort rankRel l).filter (fun e => e.2 = v) =
      l.filter (fun e => e.2 = v) := by
  induction l with
  | nil => rfl
  | cons x xs ih =>
    rw [List.insertionSort, filter_orderedInsert_rate]
    simp only [List.filter_cons]
    rw [ih]

theorem generateComparisonSummary_ranking (pr : List (String × PRes)) :
    (generateComparisonSummary pr).performance_ranking =
      List.insertionSort rankRel
        ((pr.filter (fun e => e.2.error.isNone)).map
          (fun e => (e.1, parseRate e.2.success_rate))) := by
  unfold generateComparisonSummary
  cases h : List.insertionSort rankRel
      ((pr.filter (fun e => e.2.error.isNone)).map
        (fun e => (e.1, parseRate e.2.success_rate))) with
  | nil => rfl
  | cons top rest => rfl

/-- C4: in a comparison run, a provider whose setup/connection/evaluation
threw appears in the provider results as the `{error, success_rate: "0%"}`
placeholder; the `performance_ranking` contains exactly the providers whose
result carries no error (as a stable descending sort by parsed success rate:
a permutation of the error-free entries, pairwise sorted, preserving input
order within equal rates), and the whole summary — ranking, best performer
and `average_success_rate` — depends only on the error-free entries, so error
providers are excluded from ranking and average alike. -/
theorem generateComparisonSummary_spec (outs : List (String × Except String Report)) :
    (∀ p m, (p, Except.error m) ∈ outs →
      (p, ({ error := some m, success_rate := "0%" } : PRes)) ∈ buildProviderResults outs) ∧
    (∀ p,
      p ∈ (generateComparisonSummary (buildProviderResults outs)).performance_ranking.map
        Prod.fst ↔
      ∃ res, (p, res) ∈ buildProviderResults outs ∧ res.error = none) ∧
    ((generateComparisonSummary (buildProviderResults outs)).performance_ranking.map
      Prod.fst).Perm
      (((buildProviderResults outs).filter (fun e => e.2.error.isNone)).map Prod.fst) ∧
    (generateComparisonSummary (buildProviderResults outs)).performance_ranking.Pairwise
      (fun a b => b.2 ≤ a.2) ∧
    (∀ v,
      (generateComparisonSummary (buildProviderResults outs)).performance_ranking.filter
        (fun e => e.2 = v) =
      (((buildProviderResults outs).filter (fun e => e.2.error.isNone)).map
        (fun e => (e.1, parseRate e.2.success_rate))).filter (fun e => e.2 = v)) ∧
    (generateComparisonSummary
        ((buildProviderResults outs).filter (fun e => e.2.error.isNone)) =
      generateComparisonSummary (buildProviderResults outs)) := by
  have hperm :
      ((generateComparisonSummary (buildProviderResults outs)).performance_ranking.map
        Prod.fst).Perm
        (((buildProviderResults outs).filter (fun e => e.2.error.isNone)).map Prod.fst) := by
    rw [generateComparisonSummary_ranking]
    have h1 := (List.perm_insertionSort rankRel
      (((buildProviderResults outs).filter (fun e => e.2.error.isNone)).map
        (fun e => (e.1, parseRate e.2.success_rate)))).map Prod.fst
    refine h1.trans ?_
    rw [List.map_map]
    exact List.Perm.refl _
  refine ⟨?_, ?_, hperm, ?_, ?_, ?_⟩
  · intro p m hmem
    unfold buildProviderResults
    exact List.mem_map.mpr ⟨(p, Except.error m), hmem, rfl⟩
  · intro p
    rw [hperm.mem_iff]
    constructor
    · intro hp
      obtain ⟨e, he, hfst⟩ := List.mem_map.mp hp
      have hin := List.mem_filter.mp he
      exact ⟨e.2, by rw [← hfst]; exact hin.1, Option.isNone_iff_eq_none.mp (by simpa using hin.2)⟩
    · rintro ⟨res, hres, hnone⟩
      exact List.mem_map.mpr ⟨(p, res), List.mem_filter.mpr
        ⟨hres, by simp [hnone]⟩, rfl⟩
  · rw [generateComparisonSummary_ranking]
    exact List.sorted_insertionSort rankRel _
  · intro v
    rw [generateComparisonSummary_ranking]
    exact filter_insertionSort_rate v _
  · unfold generateComparisonSummary
    rw [List.filter_filter]
    simp

/-- Witness for C4 at a concrete two-provider comparison where one provider
threw: the thrown provider gets the zero-rate placeholder, and the healthy
provider is the one in the ranking. -/
theorem generateComparisonSummary_spec_witness :
    ("openai", ({ error := some "Cannot connect to openai", success_rate := "0%" } : PRes)) ∈
      buildProviderResults
        [("ollama", .ok (generateReport [])),
         ("openai", .error "Cannot connect to openai")] ∧
    "ollama" ∈ (generateComparisonSummary (buildProviderResults
        [("ollama", .ok (generateReport [])),
         ("openai", .error "Cannot connect to openai")])).performance_ranking.map
      Prod.fst := by
  constructor
  · exact (generateComparisonSummary_spec
      [("ollama", .ok (generateReport [])),
       ("openai", .error "Cannot connect to openai")]).1
      "openai" "Cannot connect to openai" (by simp)
  · exact ((generateComparisonSummary_spec
      [("ollama", .ok (generateReport [])),
       ("openai", .error "Cannot connect to openai")]).2.1 "ollama").mpr
      ⟨{ error := none, success_rate := (generateReport []).summary.success_rate },
        by simp [buildProviderResults], rfl⟩

end SweBench
